import Mathlib

/-!
Shallow embedding of `src/sling_crawler.py` (class `SlingCrawler`).

The crawler state (`visited_urls`, `results`, `stats`, files saved under
`output_dir`) is modelled by `CrawlState`; the network is an oracle
`String → FetchOutcome` giving, for each URL, the response the transport
would deliver.  `fetch_json` and `fetch_asset` are direct translations of
the methods of the same names (lines 60-135); `crawl_path`'s per-level
processing (lines 168-219) is split into `processEntry`/`processEntries`
(the `for key, value in data.items()` loop) and `runFolderStep` (fetch,
the `if not data: return` guard, the `folders` counter, and the spawn
list).  Concurrency (asyncio cooperative scheduling) is modelled by the
small-step relation `SysStep` further below: each step corresponds to one
atomic block of Python code between two `await` suspension points.
-/

/-- Decoded JSON values, the possible results of `json.loads`.  Numbers are
modelled as integers; only truthiness and equality with string literals are
ever consumed by the crawler. -/
inductive Json where
  | null
  | bool (b : Bool)
  | num (n : Int)
  | str (s : String)
  | arr (elems : List Json)
  | obj (entries : List (String × Json))

/-- Python truthiness of a decoded JSON value (`if not data` in
`crawl_path`, line 179): `None`, `False`, `0`, `""`, `[]` and `{}` are
falsy. -/
def Json.falsy : Json → Bool
  | .null => true
  | .bool b => !b
  | .num n => n == 0
  | .str s => s = ""
  | .arr elems => elems.isEmpty
  | .obj entries => entries.isEmpty

/-- Python `==` between a decoded JSON value and a string literal
(`primary_type == 'sling:Folder'` etc., lines 208-212): true only when the
value is that very string. -/
def Json.isStrEq : Json → String → Bool
  | .str s, t => s = t
  | _, _ => false

/-- Lookup in the entry list of a decoded JSON object; since `json.loads`
builds a `dict`, keys are unique and first-match lookup agrees with
Python's `dict.get`. -/
def lookupKey : List (String × Json) → String → Option Json
  | [], _ => none
  | (k, v) :: rest, key => if k = key then some v else lookupKey rest key

/-- Python `str.lstrip('/')`: drop every leading slash. -/
def lstripSlashes (s : String) : String :=
  String.mk (s.toList.dropWhile (fun c => c = '/'))

/-- Python `str.rstrip('/')`: drop every trailing slash. -/
def rstripSlashes (s : String) : String :=
  String.mk ((s.toList.reverse.dropWhile (fun c => c = '/')).reverse)

/-- Python `str.startswith`, on the character lists of the strings. -/
def strStartsWith (s head : String) : Bool :=
  head.toList.isPrefixOf s.toList

/-- Python `str.endswith`, on the character lists of the strings. -/
def strEndsWith (s tail : String) : Bool :=
  tail.toList.isSuffixOf s.toList

/-- Line 62: `json_url = f"{url}/.1.json" if not url.endswith('.json') else
url`. -/
def jsonUrl (url : String) : String :=
  if strEndsWith url ".json" then url else url ++ "/.1.json"

/-- Lines 170-175 of `crawl_path`: the content URL of a logical path
(`self.base_url` for the root, otherwise base joined with the path, leading
slashes of the path stripped). -/
def pathUrl (base path : String) : String :=
  if path = "" ∨ path = "/" then base else base ++ "/" ++ lstripSlashes path

/-- Lines 198-202 of `crawl_path`: the logical path of a child entry
(`child_path = key` at the root, otherwise
`f"{path.rstrip('/')}/{key}"`). -/
def childPathOf (path key : String) : String :=
  if path = "" ∨ path = "/" then key else rstripSlashes path ++ "/" ++ key

/-- Line 214 of `crawl_path`: the URL an asset child is fetched from
(`f"{self.base_url}/{child_path.lstrip('/')}"`, no JSON suffix). -/
def assetUrlOf (base childPath : String) : String :=
  base ++ "/" ++ lstripSlashes childPath

/-- One entry of `self.results` (`_log_result`, lines 137-147); the
wall-clock timestamp field is outside the model.  `status = 0` encodes a
transport-level failure, as in the source. -/
structure OutcomeRecord where
  url : String
  status : Nat
  size : Nat
  kind : String
  message : String
deriving DecidableEq, Repr

/-- The four counters of `self.stats` (lines 44-51); the start/end
wall-clock timestamps are outside the model. -/
structure Stats where
  folders : Nat
  assets : Nat
  errors : Nat
  total_bytes : Nat
deriving DecidableEq, Repr

/-- The mutable shared state of one `SlingCrawler` instance: `visited_urls`
(membership is what matters, modelled as a list), `results`, `stats`, and
the files written under `output_dir` (recorded as relative-key/size pairs,
the Result Sink's view of persistence). -/
structure CrawlState where
  visited : List String
  results : List OutcomeRecord
  stats : Stats
  saved : List (String × Nat)
deriving DecidableEq, Repr

/-- A response body as the crawler consumes it: `len(content)` and the
result of `json.loads(content.decode('utf-8', errors='ignore'))` (`none`
when that raises `json.JSONDecodeError`). -/
structure Body where
  size : Nat
  decoded : Option Json

/-- What one `client.get(url)` call can deliver: a response with a status
code and body, an `httpx.TimeoutException`, or some other exception with
its string rendering. -/
inductive FetchOutcome where
  | resp (status : Nat) (body : Body)
  | timeout
  | exc (msg : String)

/-- `_log_result` (lines 137-147): append one record to `self.results`
(console printing is outside the model). -/
def logResult (s : CrawlState) (url : String) (status size : Nat)
    (kind message : String) : CrawlState :=
  { s with results := s.results ++ [⟨url, status, size, kind, message⟩] }

/-- `self.stats['errors'] += 1`. -/
def bumpErrors (s : CrawlState) : CrawlState :=
  { s with stats := { s.stats with errors := s.stats.errors + 1 } }

/-- Lines 69-97 of `fetch_json`: everything after the dedup claim — the GET
and the handling of its outcome.  Returns the Python triple
`(data, status, size)` together with the updated shared state. -/
def processFolderResponse (s : CrawlState) (json_url : String)
    (out : FetchOutcome) : (Option Json × Nat × Nat) × CrawlState :=
  match out with
  | .resp status body =>
    let size := body.size
    if status = 200 then
      match body.decoded with
      | some data =>
        ((some data, status, size), logResult s json_url status size "folder" "")
      | none =>
        ((none, status, size),
          bumpErrors (logResult s json_url status size "error" "Invalid JSON"))
    else
      ((none, status, size),
        bumpErrors (logResult s json_url status size "error"
          ("HTTP " ++ toString status)))
  | .timeout =>
    ((none, 0, 0), bumpErrors (logResult s json_url 0 0 "error" "Timeout"))
  | .exc msg =>
    ((none, 0, 0), bumpErrors (logResult s json_url 0 0 "error" msg))

/-- `fetch_json` (lines 60-97): append the `.1.json` suffix unless the URL
already ends in `.json`, return `(None, 0, 0)` untouched if the resulting
URL was already claimed, otherwise claim it and process the response.  The
membership check and the insertion (lines 64-67) contain no `await`, so
they form one atomic block under asyncio. -/
def fetch_json (s : CrawlState) (url : String) (out : FetchOutcome) :
    (Option Json × Nat × Nat) × CrawlState :=
  let json_url := jsonUrl url
  if json_url ∈ s.visited then ((none, 0, 0), s)
  else processFolderResponse { s with visited := json_url :: s.visited } json_url out

/-- Lines 106-135 of `fetch_asset`: everything after the dedup claim.
Note that `self.stats['total_bytes'] += size` (line 113) runs before the
status check, so every received response adds its body size, whatever the
status; the exception handlers never reach it. -/
def processAssetResponse (dir : Option String) (s : CrawlState)
    (url relative_path : String) (out : FetchOutcome) : CrawlState :=
  match out with
  | .resp status body =>
    let size := body.size
    let s := { s with stats := { s.stats with total_bytes := s.stats.total_bytes + size } }
    if status = 200 then
      let s := { s with stats := { s.stats with assets := s.stats.assets + 1 } }
      match dir with
      | some d =>
        let key := lstripSlashes relative_path
        logResult { s with saved := s.saved ++ [(key, size)] } url status size
          "asset" ("Saved to " ++ d ++ "/" ++ key)
      | none => logResult s url status size "asset" ""
    else
      bumpErrors (logResult s url status size "error" ("HTTP " ++ toString status))
  | .timeout => bumpErrors (logResult s url 0 0 "error" "Timeout")
  | .exc msg => bumpErrors (logResult s url 0 0 "error" msg)

/-- `fetch_asset` (lines 99-135): silently return if the URL was already
claimed (lines 101-102, atomic with the insertion on line 104), otherwise
claim it and process the response. -/
def fetch_asset (dir : Option String) (s : CrawlState)
    (url relative_path : String) (out : FetchOutcome) : CrawlState :=
  if url ∈ s.visited then s
  else processAssetResponse dir { s with visited := url :: s.visited } url relative_path out

/-- One slot of the in-memory structure tree: the `'_type'` stored when a
child is first seen (line 206).  The `'_children'` sub-map is filled by the
recursive call and is not needed by the per-level theorems. -/
structure SNode where
  ptype : Json

/-- First-match lookup in a structure map; `parent_structure` is a Python
`dict`, whose keys are unique, so this agrees with `key in
parent_structure`. -/
def lookupNode : List (String × SNode) → String → Option SNode
  | [], _ => none
  | (k, v) :: rest, key => if k = key then some v else lookupNode rest key

/-- `key in parent_structure` (line 205). -/
def hasKey (posStruct : List (String × SNode)) (key : String) : Bool :=
  (lookupNode posStruct key).isSome

/-- A sub-task spawned by `crawl_path` for one child entry: a recursive
`crawl_path` call (line 210) or a `fetch_asset` call (line 215). -/
inductive SpawnTask where
  | crawlFolder (child_path : String)
  | fetchAsset (url : String) (relative_path : String)
deriving DecidableEq, Repr

/-- Line 208: `primary_type == 'sling:Folder' or primary_type ==
'nt:unstructured'`. -/
def isFolderType (pt : Json) : Bool :=
  pt.isStrEq "sling:Folder" || pt.isStrEq "nt:unstructured"

/-- Line 212: `primary_type == 'dam:Asset'`. -/
def isAssetType (pt : Json) : Bool :=
  pt.isStrEq "dam:Asset"

/-- The three possible fates of a child entry, the codomain of the spec's
Node Classifier. -/
inductive Classification where
  | folder
  | asset
  | ignore
deriving DecidableEq, Repr

/-- The classification decision inlined in `crawl_path`'s loop (lines
188-215): metadata keys (`key.startswith('jcr:')`) and non-`dict` values
are skipped; otherwise the declared `jcr:primaryType` (defaulting to `''`)
selects folder, asset, or neither. -/
def classify (key : String) (value : Json) : Classification :=
  if strStartsWith key "jcr:" then .ignore
  else
    match value with
    | Json.obj es =>
      let pt := (lookupKey es "jcr:primaryType").getD (Json.str "")
      if isFolderType pt then .folder
      else if isAssetType pt then .asset
      else .ignore
    | _ => .ignore

/-- One iteration of the `for key, value in data.items()` loop of
`crawl_path` (lines 188-215): skip metadata keys and non-`dict` values;
otherwise read the declared type, build the child path, insert a structure
node if the key is absent (lines 205-206 — this happens for every surviving
entry, whatever its type), and append the spawned sub-task, if any. -/
def processEntry (base path : String)
    (acc : List (String × SNode) × List SpawnTask) (e : String × Json) :
    List (String × SNode) × List SpawnTask :=
  let (posStruct, tasks) := acc
  let (key, value) := e
  if strStartsWith key "jcr:" then acc
  else
    match value with
    | Json.obj es =>
      let pt := (lookupKey es "jcr:primaryType").getD (Json.str "")
      let child_path := childPathOf path key
      let posStruct := if hasKey posStruct key then posStruct else posStruct ++ [(key, ⟨pt⟩)]
      let tasks :=
        if isFolderType pt then tasks ++ [SpawnTask.crawlFolder child_path]
        else if isAssetType pt then
          tasks ++ [SpawnTask.fetchAsset (assetUrlOf base child_path) child_path]
        else tasks
      (posStruct, tasks)
    | _ => acc

/-- The whole loop, threading the structure map and the task list. -/
def processEntriesGo (base path : String) :
    List (String × Json) → (List (String × SNode) × List SpawnTask) →
    List (String × SNode) × List SpawnTask
  | [], acc => acc
  | e :: rest, acc => processEntriesGo base path rest (processEntry base path acc e)

/-- `crawl_path`'s loop starting from the parent's structure map and an
empty task list (line 185). -/
def processEntries (base path : String) (entries : List (String × Json))
    (parent : List (String × SNode)) : List (String × SNode) × List SpawnTask :=
  processEntriesGo base path entries (parent, [])

/-- The post-claim part of one `crawl_path` level (lines 177-219), given
the response for its folder-description URL `json_url`: process the
response as `fetch_json` does, return on `not data` (line 179), otherwise
increment the `folders` counter (line 182) and run the loop to produce the
spawned sub-tasks.  A truthy decoded value that is not an object makes the
Python raise `AttributeError` at `data.items()` after the counter bump; the
exception is swallowed by the parent's `asyncio.gather(...,
return_exceptions=True)` (line 219), so its observable effect equals
returning with no tasks spawned.  The structure map is threaded separately
(see `processEntries`); here only the spawn list is kept. -/
def runFolderStep (base path json_url : String) (s : CrawlState)
    (out : FetchOutcome) : CrawlState × List SpawnTask :=
  let r := processFolderResponse s json_url out
  match r.1.1 with
  | none => (r.2, [])
  | some data =>
    if data.falsy then (r.2, [])
    else
      let s2 := { r.2 with stats := { r.2.stats with folders := r.2.stats.folders + 1 } }
      match data with
      | Json.obj entries => (s2, (processEntries base path entries []).2)
      | _ => (s2, [])

/-- Progress of one asyncio sub-task through its `await` suspension points:
not yet started, past the atomic dedup claim, or completed (whether by
early return, success, or a handled error). -/
inductive Phase where
  | start
  | claimed
  | finished
deriving DecidableEq, Repr

/-- What a sub-task does: a `crawl_path` call for a logical path, or a
`fetch_asset` call for a relative path. -/
inductive TKind where
  | folderTask (path : String)
  | assetTask (relative_path : String)
deriving DecidableEq, Repr

/-- One concurrent sub-task: the URL it claims and fetches (for folder
tasks this is already the `.1.json`-suffixed description URL), its kind,
and its phase. -/
structure TaskC where
  url : String
  kind : TKind
  phase : Phase
deriving DecidableEq, Repr

/-- The whole crawl run as seen by the scheduler: the shared crawler state,
the log of network GETs actually issued (newest first), and all sub-tasks
ever created. -/
structure Sys where
  state : CrawlState
  gets : List String
  tasks : List TaskC
deriving DecidableEq, Repr

/-- A sub-task spawned by `crawl_path` starts at phase `start`; folder
children are claimed and fetched at `jsonUrl (pathUrl base child_path)`,
asset children at the URL computed on line 214. -/
def toTaskC (base : String) : SpawnTask → TaskC
  | .crawlFolder p => ⟨jsonUrl (pathUrl base p), .folderTask p, .start⟩
  | .fetchAsset u r => ⟨u, .assetTask r, .start⟩

/-- The shared-state effect and spawns of running a claimed task to
completion: a folder task runs the post-claim part of `crawl_path`
(`runFolderStep`), an asset task the post-claim part of `fetch_asset`. -/
def runTaskStep (dir : Option String) (base : String)
    (net : String → FetchOutcome) (s : CrawlState) (t : TaskC) :
    CrawlState × List TaskC :=
  match t.kind with
  | .folderTask p =>
    let r := runFolderStep base p t.url s (net t.url)
    (r.1, r.2.map (toTaskC base))
  | .assetTask rel => (processAssetResponse dir s t.url rel (net t.url), [])

/-- Small-step semantics of the concurrent crawl under asyncio's
cooperative scheduler.  Each step runs one atomic block (code between two
`await` points) of one runnable task:

* `skip`: the dedup membership test finds the URL already claimed
  (`fetch_json` lines 64-65, `fetch_asset` lines 101-102) and the task
  returns silently;
* `claim`: the membership test fails and the URL is inserted — check and
  insertion are a single atomic block, there is no `await` between them;
* `run`: a claimed task performs its GET (recorded in `gets`), processes
  the outcome, and appends its spawned children, all of which start
  unclaimed.  Exceptions never escape (`fetch_json`/`fetch_asset` catch
  them, `asyncio.gather` is called with `return_exceptions=True`), so no
  step ever removes or alters another task. -/
inductive SysStep (dir : Option String) (base : String)
    (net : String → FetchOutcome) : Sys → Sys → Prop where
  | skip (st : CrawlState) (g : List String) (pre post : List TaskC) (t : TaskC) :
      t.phase = Phase.start → t.url ∈ st.visited →
      SysStep dir base net ⟨st, g, pre ++ t :: post⟩
        ⟨st, g, pre ++ { t with phase := Phase.finished } :: post⟩
  | claim (st : CrawlState) (g : List String) (pre post : List TaskC) (t : TaskC) :
      t.phase = Phase.start → t.url ∉ st.visited →
      SysStep dir base net ⟨st, g, pre ++ t :: post⟩
        ⟨{ st with visited := t.url :: st.visited }, g,
          pre ++ { t with phase := Phase.claimed } :: post⟩
  | run (st : CrawlState) (g : List String) (pre post : List TaskC) (t : TaskC) :
      t.phase = Phase.claimed →
      SysStep dir base net ⟨st, g, pre ++ t :: post⟩
        ⟨(runTaskStep dir base net st t).1, t.url :: g,
          (pre ++ { t with phase := Phase.finished } :: post) ++
            (runTaskStep dir base net st t).2⟩

/-- Number of GETs issued for one URL. -/
def countGets (s : Sys) (u : String) : Nat := s.gets.count u

/-- Number of tasks currently past the claim but not yet run, for one
URL. -/
def claimedFor (ts : List TaskC) (u : String) : Nat :=
  (ts.filter (fun t => t.phase = Phase.claimed ∧ t.url = u)).length

/-- Number of tasks currently past the claim but not yet run. -/
def claimedAll (ts : List TaskC) : Nat :=
  (ts.filter (fun t => t.phase = Phase.claimed)).length

/-- Number of outcome records of a given kind. -/
def countKind (rs : List OutcomeRecord) (k : String) : Nat :=
  (rs.filter (fun r => r.kind = k)).length

theorem toList_append (a b : String) : (a ++ b).toList = a.toList ++ b.toList := by
  cases a; cases b; rfl

theorem strEndsWith_append_json (u : String) :
    strEndsWith (u ++ "/.1.json") ".json" = true := by
  unfold strEndsWith List.isSuffixOf
  rw [toList_append, List.reverse_append]
  rfl

/-- C9: a URL already present in the visited set makes both `fetch_json`
(lines 64-65, the folder fetch checks the suffixed URL) and `fetch_asset`
(lines 101-102) return with the state completely unchanged — no record, no
counter change, and a result independent of whatever the network would have
answered, i.e. no GET is issued. -/
theorem c9_duplicate_claim_silent (dir : Option String) (s : CrawlState)
    (urlF urlA relative_path : String) (outF outA : FetchOutcome)
    (hF : jsonUrl urlF ∈ s.visited) (hA : urlA ∈ s.visited) :
    fetch_json s urlF outF = ((none, 0, 0), s) ∧
    fetch_asset dir s urlA relative_path outA = s := by
  constructor
  · simp only [fetch_json]
    rw [if_pos hF]
  · simp only [fetch_asset]
    rw [if_pos hA]

/-- C9 witness: both fetches at already-visited URLs leave a concrete state
untouched. -/
theorem c9_duplicate_claim_silent_witness :
    fetch_json ⟨["http://h/x/.1.json", "http://h/a"], [], ⟨0, 0, 0, 0⟩, []⟩
        "http://h/x" FetchOutcome.timeout =
      ((none, 0, 0), ⟨["http://h/x/.1.json", "http://h/a"], [], ⟨0, 0, 0, 0⟩, []⟩) ∧
    fetch_asset none ⟨["http://h/x/.1.json", "http://h/a"], [], ⟨0, 0, 0, 0⟩, []⟩
        "http://h/a" "a" (FetchOutcome.exc "boom") =
      ⟨["http://h/x/.1.json", "http://h/a"], [], ⟨0, 0, 0, 0⟩, []⟩ :=
  c9_duplicate_claim_silent none ⟨["http://h/x/.1.json", "http://h/a"], [], ⟨0, 0, 0, 0⟩, []⟩
    "http://h/x" "http://h/a" "a" FetchOutcome.timeout (FetchOutcome.exc "boom")
    (by decide) (by decide)

/-- C6 counterexample: `"foo/"` is a non-root path, yet joining it with
`"bar"` gives `"foo/bar"` (the code first strips trailing slashes, line
202), not `"foo/" + "/" + "bar"` as the claim's formula demands. -/
theorem c6_counterexample :
    ¬ ("foo/" = "" ∨ "foo/" = "/") ∧
    childPathOf "foo/" "bar" = "foo/bar" ∧
    childPathOf "foo/" "bar" ≠ "foo/" ++ "/" ++ "bar" := by decide

/-- C6 amended: joining root `""` or `"/"` with a child name yields the
name itself; joining a non-root path with a child yields the path with
trailing slashes stripped, then one slash, then the name — which equals
`p + "/" + c` exactly when `p` has no trailing slash. -/
theorem c6_amended_child_join (p c : String) (h1 : p ≠ "") (h2 : p ≠ "/")
    (h3 : rstripSlashes p = p) :
    childPathOf "" c = c ∧ childPathOf "/" c = c ∧
    childPathOf p c = p ++ "/" ++ c := by
  refine ⟨by simp [childPathOf], by simp [childPathOf], ?_⟩
  unfold childPathOf
  rw [if_neg (by simp [h1, h2]), h3]

/-- C6 witness: the amended join property at `"foo"`/`"bar"` and at the two
root spellings. -/
theorem c6_amended_child_join_witness :
    childPathOf "" "bar" = "bar" ∧ childPathOf "/" "bar" = "bar" ∧
    childPathOf "foo" "bar" = "foo" ++ "/" ++ "bar" :=
  c6_amended_child_join "foo" "bar" (by decide) (by decide) (by decide)

/-- C2 counterexample: for the path `"foo.json"` the URL that `crawl_path`
resolves, claims and fetches is `"http://h/foo.json"` — line 62 skips the
suffix because the URL already ends in `.json` — and not
`base + "/" + path + "/.1.json"` as the claim demands for every path. -/
theorem c2_counterexample :
    jsonUrl (pathUrl "http://h" "foo.json") = "http://h/foo.json" ∧
    "http://h/foo.json" ≠ "http://h" ++ "/" ++ "foo.json" ++ "/.1.json" ∧
    (fetch_json ⟨[], [], ⟨0, 0, 0, 0⟩, []⟩ (pathUrl "http://h" "foo.json")
        FetchOutcome.timeout).2.visited = ["http://h/foo.json"] := by decide

/-- C2 amended: the root resolves to the base URL and its description URL
is `base + "/.1.json"` (when the base itself does not end in `.json`); a
non-root path `p` without leading slashes resolves to `base + "/" + p`, and
its description URL carries the `"/.1.json"` suffix exactly when the
content URL does not already end in `.json`, in which case no suffix is
added; the asset URL is always `base + "/" + p` with no suffix; and the
suffixing step is idempotent, so the suffix is appended at most once. -/
theorem c2_amended_url_mapping (base p : String) (h1 : p ≠ "") (h2 : p ≠ "/")
    (h3 : lstripSlashes p = p)
    (hb : strEndsWith base ".json" = false)
    (hp : strEndsWith (base ++ "/" ++ p) ".json" = false) :
    pathUrl base "" = base ∧ pathUrl base "/" = base ∧
    jsonUrl (pathUrl base "") = base ++ "/.1.json" ∧
    pathUrl base p = base ++ "/" ++ p ∧
    jsonUrl (pathUrl base p) = base ++ "/" ++ p ++ "/.1.json" ∧
    assetUrlOf base p = base ++ "/" ++ p ∧
    jsonUrl (jsonUrl (pathUrl base p)) = jsonUrl (pathUrl base p) := by
  have hroot : pathUrl base "" = base := by simp [pathUrl]
  have hnonroot : pathUrl base p = base ++ "/" ++ p := by
    unfold pathUrl
    rw [if_neg (by simp [h1, h2]), h3]
  refine ⟨hroot, by simp [pathUrl], ?_, hnonroot, ?_, ?_, ?_⟩
  · rw [hroot]
    unfold jsonUrl
    rw [hb]
    simp
  · rw [hnonroot]
    unfold jsonUrl
    rw [hp]
    simp
  · unfold assetUrlOf
    rw [h3]
  · rw [hnonroot]
    unfold jsonUrl
    rw [hp]
    simp only [Bool.false_eq_true, if_false]
    rw [strEndsWith_append_json]
    simp

/-- C2 witness: the amended URL mapping at base `"http://h"` and path
`"foo"`. -/
theorem c2_amended_url_mapping_witness :
    pathUrl "http://h" "" = "http://h" ∧ pathUrl "http://h" "/" = "http://h" ∧
    jsonUrl (pathUrl "http://h" "") = "http://h" ++ "/.1.json" ∧
    pathUrl "http://h" "foo" = "http://h" ++ "/" ++ "foo" ∧
    jsonUrl (pathUrl "http://h" "foo") = "http://h" ++ "/" ++ "foo" ++ "/.1.json" ∧
    assetUrlOf "http://h" "foo" = "http://h" ++ "/" ++ "foo" ∧
    jsonUrl (jsonUrl (pathUrl "http://h" "foo")) = jsonUrl (pathUrl "http://h" "foo") :=
  c2_amended_url_mapping "http://h" "foo" (by decide) (by decide) (by decide)
    (by decide) (by decide)

/-- C5 counterexample: a claimed asset fetch answered `404` with a 10-byte
body.  The claim says a non-200 outcome leaves the total-bytes counter
unchanged, but line 113 adds the body size before the status check: the
counter ends at 10, while the error counter is incremented and the asset
counter is not. -/
theorem c5_counterexample :
    (fetch_asset none ⟨[], [], ⟨0, 0, 0, 0⟩, []⟩ "http://h/a" "a"
        (FetchOutcome.resp 404 ⟨10, none⟩)).stats.total_bytes = 10 ∧
    (10 : Nat) ≠ 0 ∧
    (fetch_asset none ⟨[], [], ⟨0, 0, 0, 0⟩, []⟩ "http://h/a" "a"
        (FetchOutcome.resp 404 ⟨10, none⟩)).stats.assets = 0 ∧
    (fetch_asset none ⟨[], [], ⟨0, 0, 0, 0⟩, []⟩ "http://h/a" "a"
        (FetchOutcome.resp 404 ⟨10, none⟩)).stats.errors = 1 := by decide

/-- C5 amended: for a claimed asset fetch, any received response adds its
body size to the total-bytes counter whatever its status; on status 200 the
asset counter is incremented, an asset-kind record is emitted, and the body
is recorded under the asset's logical path (leading slashes stripped) when
a storage root is configured; on any other status an error record is
emitted and the error counter incremented with the asset counter and saved
files unchanged; on a transport failure an error record is emitted and the
error counter incremented with no change to the asset or total-bytes
counters. -/
theorem c5_amended_asset_fetch (dir : Option String) (s : CrawlState)
    (url rel : String) (out : FetchOutcome) (s' : CrawlState)
    (hnv : url ∉ s.visited) (hs' : s' = fetch_asset dir s url rel out) :
    s'.stats.folders = s.stats.folders ∧
    (∀ status body, out = FetchOutcome.resp status body →
      s'.stats.total_bytes = s.stats.total_bytes + body.size ∧
      (status = 200 →
        s'.stats.assets = s.stats.assets + 1 ∧
        s'.stats.errors = s.stats.errors ∧
        (∃ m, s'.results = s.results ++ [⟨url, 200, body.size, "asset", m⟩]) ∧
        (∀ d, dir = some d → s'.saved = s.saved ++ [(lstripSlashes rel, body.size)]) ∧
        (dir = none → s'.saved = s.saved)) ∧
      (status ≠ 200 →
        s'.stats.assets = s.stats.assets ∧
        s'.stats.errors = s.stats.errors + 1 ∧
        s'.results = s.results ++ [⟨url, status, body.size, "error", "HTTP " ++ toString status⟩] ∧
        s'.saved = s.saved)) ∧
    ((out = FetchOutcome.timeout ∨ ∃ m, out = FetchOutcome.exc m) →
      s'.stats.total_bytes = s.stats.total_bytes ∧
      s'.stats.assets = s.stats.assets ∧
      s'.stats.errors = s.stats.errors + 1 ∧
      (∃ r, s'.results = s.results ++ [r] ∧ r.kind = "error" ∧ r.url = url) ∧
      s'.saved = s.saved) := by
  subst hs'
  unfold fetch_asset
  rw [if_neg hnv]
  cases out with
  | resp status body =>
    by_cases h200 : status = 200
    · subst h200
      cases dir with
      | none =>
        simp [processAssetResponse, logResult, bumpErrors]
      | some d =>
        simp [processAssetResponse, logResult, bumpErrors]
    · simp [processAssetResponse, logResult, bumpErrors, h200]
  | timeout =>
    simp [processAssetResponse, logResult, bumpErrors]
  | exc m =>
    simp [processAssetResponse, logResult, bumpErrors]

/-- C5 witness: the amended characterization applied to a fresh state, a
200 response of 7 bytes, and a configured storage root. -/
theorem c5_amended_asset_fetch_witness :
    ("http://h/a" ∉ ([] : List String)) ∧
    ((fetch_asset (some "out") ⟨[], [], ⟨0, 0, 0, 0⟩, []⟩ "http://h/a" "/a"
        (FetchOutcome.resp 200 ⟨7, none⟩)).stats.total_bytes = 0 + 7 ∧
      (fetch_asset (some "out") ⟨[], [], ⟨0, 0, 0, 0⟩, []⟩ "http://h/a" "/a"
        (FetchOutcome.resp 200 ⟨7, none⟩)).stats.assets = 0 + 1 ∧
      (fetch_asset (some "out") ⟨[], [], ⟨0, 0, 0, 0⟩, []⟩ "http://h/a" "/a"
        (FetchOutcome.resp 200 ⟨7, none⟩)).saved = [] ++ [(lstripSlashes "/a", 7)]) := by
  constructor
  · decide
  · have h := c5_amended_asset_fetch (some "out") ⟨[], [], ⟨0, 0, 0, 0⟩, []⟩
      "http://h/a" "/a" (FetchOutcome.resp 200 ⟨7, none⟩) _ (by decide) rfl
    have h2 := (h.2.1 200 ⟨7, none⟩ rfl)
    exact ⟨h2.1, (h2.2.1 rfl).1, (h2.2.1 rfl).2.2.2.1 "out" rfl⟩

/-- The outcomes on which `fetch_json` returns `data = None`: a non-200
status, a 200 body that `json.loads` rejects, a timeout, or any other
exception. -/
def failingOutcome : FetchOutcome → Prop
  | .resp status body => status ≠ 200 ∨ body.decoded = none
  | .timeout => True
  | .exc _ => True

theorem runFolderStep_fail (base path json_url : String) (s : CrawlState)
    (out : FetchOutcome) (hf : failingOutcome out) :
    ∃ rec : OutcomeRecord,
      (runFolderStep base path json_url s out).1 =
        { s with results := s.results ++ [rec],
                 stats := { s.stats with errors := s.stats.errors + 1 } } ∧
      (runFolderStep base path json_url s out).2 = [] ∧
      rec.kind = "error" ∧ rec.url = json_url ∧
      (∀ status body, out = FetchOutcome.resp status body →
        rec.status = status ∧ rec.size = body.size) ∧
      (out = FetchOutcome.timeout → rec.status = 0 ∧ rec.message = "Timeout") ∧
      (∀ m, out = FetchOutcome.exc m → rec.status = 0 ∧ rec.message = m) := by
  cases out with
  | resp status body =>
    by_cases h200 : status = 200
    · subst h200
      have hdec : body.decoded = none := by
        rcases hf with h | h
        · exact absurd rfl h
        · exact h
      refine ⟨⟨json_url, 200, body.size, "error", "Invalid JSON"⟩, ?_, ?_, rfl, rfl, ?_, ?_, ?_⟩ <;>
        simp [runFolderStep, processFolderResponse, logResult, bumpErrors, hdec]
    · refine ⟨⟨json_url, status, body.size, "error", "HTTP " ++ toString status⟩,
        ?_, ?_, rfl, rfl, ?_, ?_, ?_⟩ <;>
        simp [runFolderStep, processFolderResponse, logResult, bumpErrors, h200]
  | timeout =>
    refine ⟨⟨json_url, 0, 0, "error", "Timeout"⟩, ?_, ?_, rfl, rfl, ?_, ?_, ?_⟩ <;>
      simp [runFolderStep, processFolderResponse, logResult, bumpErrors]
  | exc m =>
    refine ⟨⟨json_url, 0, 0, "error", m⟩, ?_, ?_, rfl, rfl, ?_, ?_, ?_⟩ <;>
      simp [runFolderStep, processFolderResponse, logResult, bumpErrors]

/-- C4 counterexample: a claimed folder fetch answered 200 with the body
`null` — well-formed JSON but not a JSON object.  The claim demands an
error-kind record and an error-counter increment; the code only catches
`json.JSONDecodeError` (line 81), so it logs a folder-kind record and
leaves the error counter at zero. -/
theorem c4_counterexample :
    (fetch_json ⟨[], [], ⟨0, 0, 0, 0⟩, []⟩ "http://h/x"
        (FetchOutcome.resp 200 ⟨4, some Json.null⟩)).2.results.map (fun r => r.kind) =
      ["folder"] ∧
    (fetch_json ⟨[], [], ⟨0, 0, 0, 0⟩, []⟩ "http://h/x"
        (FetchOutcome.resp 200 ⟨4, some Json.null⟩)).2.stats.errors = 0 := by decide

/-- C4 amended: for every folder fetch whose outcome is a non-200 status, a
transport failure, or a 200 body that fails JSON decoding, exactly one
error-kind record carrying the status or exception summary is appended, the
error counter is incremented by exactly one (all other counters untouched),
and no sub-task is spawned.  A 200 body that decodes to a non-object JSON
value is instead logged as one folder-kind record with the error counter
unchanged and nothing spawned: when the decoded value is falsy (null,
false, 0, an empty string or array) no counter changes at all; when it is
truthy, the folders counter is incremented (line 182) before
`data.items()` raises `AttributeError` — swallowed by the parent's
`gather(..., return_exceptions=True)` — so still no error record and no
recursion. -/
theorem c4_amended_folder_failure (base path json_url : String)
    (s : CrawlState) (out : FetchOutcome) :
    (failingOutcome out →
      ∃ rec : OutcomeRecord,
        (runFolderStep base path json_url s out).1 =
          { s with results := s.results ++ [rec],
                   stats := { s.stats with errors := s.stats.errors + 1 } } ∧
        (runFolderStep base path json_url s out).2 = [] ∧
        rec.kind = "error" ∧ rec.url = json_url ∧
        (∀ status body, out = FetchOutcome.resp status body →
          rec.status = status ∧ rec.size = body.size) ∧
        (out = FetchOutcome.timeout → rec.status = 0 ∧ rec.message = "Timeout") ∧
        (∀ m, out = FetchOutcome.exc m → rec.status = 0 ∧ rec.message = m)) ∧
    (∀ body data, out = FetchOutcome.resp 200 body → body.decoded = some data →
      (∀ es, data ≠ Json.obj es) →
      (runFolderStep base path json_url s out).1.results =
        s.results ++ [⟨json_url, 200, body.size, "folder", ""⟩] ∧
      (runFolderStep base path json_url s out).1.stats.errors = s.stats.errors ∧
      (runFolderStep base path json_url s out).1.stats.assets = s.stats.assets ∧
      (runFolderStep base path json_url s out).1.stats.total_bytes = s.stats.total_bytes ∧
      (runFolderStep base path json_url s out).2 = [] ∧
      (data.falsy = true →
        (runFolderStep base path json_url s out).1.stats.folders = s.stats.folders) ∧
      (data.falsy = false →
        (runFolderStep base path json_url s out).1.stats.folders = s.stats.folders + 1)) := by
  constructor
  · intro hf
    exact runFolderStep_fail base path json_url s out hf
  · intro body data hout hdec hnobj
    subst hout
    cases hfd : data.falsy with
    | true =>
      cases data with
      | obj es => exact absurd rfl (hnobj es)
      | null => simp [runFolderStep, processFolderResponse, hdec, hfd, logResult]
      | bool b => simp [runFolderStep, processFolderResponse, hdec, hfd, logResult]
      | num n => simp [runFolderStep, processFolderResponse, hdec, hfd, logResult]
      | str a => simp [runFolderStep, processFolderResponse, hdec, hfd, logResult]
      | arr xs => simp [runFolderStep, processFolderResponse, hdec, hfd, logResult]
    | false =>
      cases data with
      | obj es => exact absurd rfl (hnobj es)
      | null => simp [Json.falsy] at hfd
      | bool b => simp [runFolderStep, processFolderResponse, hdec, hfd, logResult]
      | num n => simp [runFolderStep, processFolderResponse, hdec, hfd, logResult]
      | str a => simp [runFolderStep, processFolderResponse, hdec, hfd, logResult]
      | arr xs => simp [runFolderStep, processFolderResponse, hdec, hfd, logResult]

/-- C4 witness: the amended statement at a 404 response — one error record
with status 404, error counter 1, nothing spawned — and at a 200 response
whose body decodes to `true` (truthy, not an object) — one folder-kind
record, folders counter incremented, nothing spawned. -/
theorem c4_amended_folder_failure_witness :
    (runFolderStep "http://h" "x" "http://h/x/.1.json" ⟨[], [], ⟨0, 0, 0, 0⟩, []⟩
        (FetchOutcome.resp 404 ⟨3, none⟩)).1.stats.errors = 0 + 1 ∧
    (runFolderStep "http://h" "x" "http://h/x/.1.json" ⟨[], [], ⟨0, 0, 0, 0⟩, []⟩
        (FetchOutcome.resp 404 ⟨3, none⟩)).2 = [] ∧
    (runFolderStep "http://h" "x" "http://h/x/.1.json" ⟨[], [], ⟨0, 0, 0, 0⟩, []⟩
        (FetchOutcome.resp 404 ⟨3, none⟩)).1.results.map (fun r => (r.kind, r.status)) =
      [("error", 404)] ∧
    (runFolderStep "http://h" "x" "http://h/x/.1.json" ⟨[], [], ⟨0, 0, 0, 0⟩, []⟩
        (FetchOutcome.resp 200 ⟨4, some (Json.bool true)⟩)).1.results =
      [] ++ [⟨"http://h/x/.1.json", 200, 4, "folder", ""⟩] ∧
    (runFolderStep "http://h" "x" "http://h/x/.1.json" ⟨[], [], ⟨0, 0, 0, 0⟩, []⟩
        (FetchOutcome.resp 200 ⟨4, some (Json.bool true)⟩)).1.stats.folders = 0 + 1 ∧
    (runFolderStep "http://h" "x" "http://h/x/.1.json" ⟨[], [], ⟨0, 0, 0, 0⟩, []⟩
        (FetchOutcome.resp 200 ⟨4, some (Json.bool true)⟩)).2 = [] := by
  have h4 := (c4_amended_folder_failure "http://h" "x" "http://h/x/.1.json"
    ⟨[], [], ⟨0, 0, 0, 0⟩, []⟩ (FetchOutcome.resp 404 ⟨3, none⟩)).1 (Or.inl (by decide))
  have hb := (c4_amended_folder_failure "http://h" "x" "http://h/x/.1.json"
    ⟨[], [], ⟨0, 0, 0, 0⟩, []⟩ (FetchOutcome.resp 200 ⟨4, some (Json.bool true)⟩)).2
    ⟨4, some (Json.bool true)⟩ (Json.bool true) rfl rfl (fun es h => Json.noConfusion h)
  rcases h4 with ⟨rec, h1, h2, h3, _, h5, _, _⟩
  have h6 := h5 404 ⟨3, none⟩ rfl
  refine ⟨by rw [h1], h2, ?_, hb.1, hb.2.2.2.2.2.2 rfl, hb.2.2.2.2.1⟩
  rw [h1]
  simp [h3, h6.1]

theorem lookupNode_append_of_isSome (st : List (String × SNode)) (l : List (String × SNode))
    (key : String) (n : SNode) (h : lookupNode st key = some n) :
    lookupNode (st ++ l) key = some n := by
  induction st with
  | nil => simp [lookupNode] at h
  | cons hd tl ih =>
    obtain ⟨k, v⟩ := hd
    by_cases hk : k = key
    · simp [lookupNode, hk] at h ⊢
      exact h
    · simp [lookupNode, hk] at h ⊢
      exact ih h

theorem lookupNode_append_self (st : List (String × SNode)) (key : String) (n : SNode)
    (h : lookupNode st key = none) :
    lookupNode (st ++ [(key, n)]) key = some n := by
  induction st with
  | nil => simp [lookupNode]
  | cons hd tl ih =>
    obtain ⟨k, v⟩ := hd
    by_cases hk : k = key
    · simp [lookupNode, hk] at h
    · simp [lookupNode, hk] at h ⊢
      exact ih h

theorem lookupNode_append_other (st : List (String × SNode)) (k' key : String) (n : SNode)
    (h : k' ≠ key) :
    lookupNode (st ++ [(k', n)]) key = lookupNode st key := by
  induction st with
  | nil => simp [lookupNode, h]
  | cons hd tl ih =>
    obtain ⟨k, v⟩ := hd
    by_cases hk : k = key
    · simp [lookupNode, hk]
    · simp [lookupNode, hk]
      exact ih

theorem processEntry_preserve (base path : String) (st : List (String × SNode))
    (ts : List SpawnTask) (e : String × Json) (key : String) (n : SNode)
    (h : lookupNode st key = some n) :
    lookupNode (processEntry base path (st, ts) e).1 key = some n := by
  obtain ⟨k, v⟩ := e
  unfold processEntry
  by_cases hm : strStartsWith k "jcr:"
  · simp [hm, h]
  · cases v with
    | obj es =>
      simp only [hm, Bool.false_eq_true, if_false]
      by_cases hh : hasKey st k
      · simp [hh, h]
      · simp only [hh, Bool.false_eq_true, if_false]
        exact lookupNode_append_of_isSome st _ key n h
    | null => simp [hm, h]
    | bool b => simp [hm, h]
    | num m => simp [hm, h]
    | str t => simp [hm, h]
    | arr xs => simp [hm, h]

theorem processEntry_other (base path : String) (st : List (String × SNode))
    (ts : List SpawnTask) (k : String) (v : Json) (key : String)
    (h : k ≠ key) :
    lookupNode (processEntry base path (st, ts) (k, v)).1 key = lookupNode st key := by
  unfold processEntry
  by_cases hm : strStartsWith k "jcr:"
  · simp [hm]
  · cases v with
    | obj es =>
      simp only [hm, Bool.false_eq_true, if_false]
      by_cases hh : hasKey st k
      · simp [hh]
      · simp only [hh, Bool.false_eq_true, if_false]
        exact lookupNode_append_other st k key _ h
    | null => simp [hm]
    | bool b => simp [hm]
    | num m => simp [hm]
    | str t => simp [hm]
    | arr xs => simp [hm]

theorem processEntry_insert (base path : String) (st : List (String × SNode))
    (ts : List SpawnTask) (key : String) (es : List (String × Json))
    (hmeta : strStartsWith key "jcr:" = false)
    (habs : lookupNode st key = none) :
    lookupNode (processEntry base path (st, ts) (key, Json.obj es)).1 key =
      some ⟨(lookupKey es "jcr:primaryType").getD (Json.str "")⟩ := by
  unfold processEntry
  have hh : hasKey st key = false := by simp [hasKey, habs]
  simp only [hmeta, Bool.false_eq_true, if_false, hh]
  exact lookupNode_append_self st key _ habs

theorem processEntriesGo_preserve (base path : String)
    (entries : List (String × Json)) (key : String) (n : SNode) :
    ∀ (st : List (String × SNode)) (ts : List SpawnTask),
      lookupNode st key = some n →
      lookupNode (processEntriesGo base path entries (st, ts)).1 key = some n := by
  induction entries with
  | nil => intro st ts h; simpa [processEntriesGo] using h
  | cons e rest ih =>
    intro st ts h
    simp only [processEntriesGo]
    exact ih (processEntry base path (st, ts) e).1 (processEntry base path (st, ts) e).2
      (processEntry_preserve base path st ts e key n h)

theorem processEntriesGo_mem (base path key : String) (es : List (String × Json))
    (hmeta : strStartsWith key "jcr:" = false) :
    ∀ (entries : List (String × Json)) (st : List (String × SNode)) (ts : List SpawnTask),
      (entries.map Prod.fst).Nodup →
      (key, Json.obj es) ∈ entries →
      lookupNode st key = none →
      lookupNode (processEntriesGo base path entries (st, ts)).1 key =
        some ⟨(lookupKey es "jcr:primaryType").getD (Json.str "")⟩ := by
  intro entries
  induction entries with
  | nil => intro st ts _ hmem _; simp at hmem
  | cons e rest ih =>
    intro st ts hnodup hmem habs
    simp only [processEntriesGo]
    rcases List.mem_cons.mp hmem with heq | hmem2
    · cases heq
      exact processEntriesGo_preserve base path rest key _ _ _
        (processEntry_insert base path st ts key es hmeta habs)
    · obtain ⟨k, v⟩ := e
      rw [List.map_cons] at hnodup
      have hnd := List.nodup_cons.mp hnodup
      have hk : k ≠ key := by
        intro hkey
        subst hkey
        have hin : (k, Json.obj es).1 ∈ rest.map Prod.fst :=
          List.mem_map_of_mem Prod.fst hmem2
        exact hnd.1 hin
      have hstill : lookupNode (processEntry base path (st, ts) (k, v)).1 key = none := by
        rw [processEntry_other base path st ts k v key hk]
        exact habs
      exact ih _ _ hnd.2 hmem2 hstill

/-- C10: for every entry of the decoded parent object whose key lacks the
`jcr:` metadata marker and whose value is an object, `crawl_path`'s loop
inserts a node for that key into the parent's structure map recording the
declared `jcr:primaryType` (lines 205-206) — the insertion happens before
the type dispatch, so it also covers children that are neither recursed
into nor fetched. -/
theorem c10_structure_insertion (base path : String)
    (entries : List (String × Json)) (parent : List (String × SNode))
    (key : String) (es : List (String × Json))
    (hnodup : (entries.map Prod.fst).Nodup)
    (hmem : (key, Json.obj es) ∈ entries)
    (hmeta : strStartsWith key "jcr:" = false)
    (habs : lookupNode parent key = none) :
    lookupNode (processEntries base path entries parent).1 key =
      some ⟨(lookupKey es "jcr:primaryType").getD (Json.str "")⟩ :=
  processEntriesGo_mem base path key es hmeta entries parent [] hnodup hmem habs

/-- C10 witness: a child of declared type `cq:Page` — classified neither
folder nor asset, so never fetched — still gets a structure node recording
that type. -/
theorem c10_structure_insertion_witness :
    lookupNode (processEntries "http://h" ""
        [("child", Json.obj [("jcr:primaryType", Json.str "cq:Page")])] []).1 "child" =
      some ⟨Json.str "cq:Page"⟩ :=
  c10_structure_insertion "http://h" ""
    [("child", Json.obj [("jcr:primaryType", Json.str "cq:Page")])] [] "child"
    [("jcr:primaryType", Json.str "cq:Page")]
    (by decide) (List.mem_singleton_self _) (by decide) rfl

/-- C7: classification of a child entry is total and deterministic — the
decision inlined in lines 188-215 always yields exactly one of folder,
asset, or ignore; `jcr:`-keyed entries and non-object values always yield
ignore; a declared `sling:Folder` or `nt:unstructured` yields folder, a
declared `dam:Asset` yields asset, anything else yields ignore; and the
loop spawns a recursive crawl for folder, an asset fetch (at the suffixless
asset URL) for asset, and nothing for ignore.  The decision reads only the
entry, never the network. -/
theorem c7_classification_total (base path : String)
    (posStruct : List (String × SNode)) (tasks : List SpawnTask)
    (key : String) (value : Json) :
    (classify key value = Classification.folder ∨
     classify key value = Classification.asset ∨
     classify key value = Classification.ignore) ∧
    (strStartsWith key "jcr:" = true → classify key value = Classification.ignore) ∧
    ((∀ es, value ≠ Json.obj es) → classify key value = Classification.ignore) ∧
    (∀ es, value = Json.obj es → strStartsWith key "jcr:" = false →
      (((lookupKey es "jcr:primaryType").getD (Json.str "") = Json.str "sling:Folder" ∨
        (lookupKey es "jcr:primaryType").getD (Json.str "") = Json.str "nt:unstructured") →
        classify key value = Classification.folder) ∧
      ((lookupKey es "jcr:primaryType").getD (Json.str "") = Json.str "dam:Asset" →
        classify key value = Classification.asset) ∧
      (isFolderType ((lookupKey es "jcr:primaryType").getD (Json.str "")) = false →
       isAssetType ((lookupKey es "jcr:primaryType").getD (Json.str "")) = false →
        classify key value = Classification.ignore)) ∧
    ((processEntry base path (posStruct, tasks) (key, value)).2 =
      match classify key value with
      | Classification.folder => tasks ++ [SpawnTask.crawlFolder (childPathOf path key)]
      | Classification.asset =>
          tasks ++ [SpawnTask.fetchAsset (assetUrlOf base (childPathOf path key))
            (childPathOf path key)]
      | Classification.ignore => tasks) := by
  refine ⟨?_, ?_, ?_, ?_, ?_⟩
  · cases h : classify key value with
    | folder => exact Or.inl rfl
    | asset => exact Or.inr (Or.inl rfl)
    | ignore => exact Or.inr (Or.inr rfl)
  · intro h
    simp [classify, h]
  · intro h
    cases value with
    | obj es => exact absurd rfl (h es)
    | null => simp [classify]
    | bool b => simp [classify]
    | num n => simp [classify]
    | str t => simp [classify]
    | arr xs => simp [classify]
  · intro es hv hm
    subst hv
    refine ⟨?_, ?_, ?_⟩
    · rintro (h | h) <;>
        simp [classify, hm, isFolderType, Json.isStrEq, h]
    · intro h
      simp [classify, hm, isFolderType, isAssetType, Json.isStrEq, h]
    · intro h1 h2
      simp [classify, hm, h1, h2]
  · cases value with
    | obj es =>
      cases hm : strStartsWith key "jcr:" with
      | true => simp [processEntry, classify, hm]
      | false =>
        cases hft : isFolderType ((lookupKey es "jcr:primaryType").getD (Json.str "")) with
        | true => simp [processEntry, classify, hm, hft]
        | false =>
          cases hat : isAssetType ((lookupKey es "jcr:primaryType").getD (Json.str "")) with
          | true => simp [processEntry, classify, hm, hft, hat]
          | false => simp [processEntry, classify, hm, hft, hat]
    | null => cases hm : strStartsWith key "jcr:" <;> simp [processEntry, classify, hm]
    | bool b => cases hm : strStartsWith key "jcr:" <;> simp [processEntry, classify, hm]
    | num n => cases hm : strStartsWith key "jcr:" <;> simp [processEntry, classify, hm]
    | str t => cases hm : strStartsWith key "jcr:" <;> simp [processEntry, classify, hm]
    | arr xs => cases hm : strStartsWith key "jcr:" <;> simp [processEntry, classify, hm]

/-- C7 witness: a `dam:Asset` child is classified asset and the loop spawns
exactly its asset fetch at the suffixless URL. -/
theorem c7_classification_total_witness :
    classify "img" (Json.obj [("jcr:primaryType", Json.str "dam:Asset")]) =
      Classification.asset ∧
    (processEntry "http://h" "" (([] : List (String × SNode)), ([] : List SpawnTask))
        ("img", Json.obj [("jcr:primaryType", Json.str "dam:Asset")])).2 =
      [SpawnTask.fetchAsset "http://h/img" "img"] := by
  have h := c7_classification_total "http://h" "" [] [] "img"
    (Json.obj [("jcr:primaryType", Json.str "dam:Asset")])
  have hc : classify "img" (Json.obj [("jcr:primaryType", Json.str "dam:Asset")]) =
      Classification.asset :=
    (h.2.2.2.1 _ rfl (by decide)).2.1 rfl
  refine ⟨hc, ?_⟩
  rw [h.2.2.2.2, hc]
  decide

theorem claimedFor_append (l1 l2 : List TaskC) (u : String) :
    claimedFor (l1 ++ l2) u = claimedFor l1 u + claimedFor l2 u := by
  simp [claimedFor, List.filter_append]

theorem claimedFor_cons (t : TaskC) (l : List TaskC) (u : String) :
    claimedFor (t :: l) u =
      (if t.phase = Phase.claimed ∧ t.url = u then 1 else 0) + claimedFor l u := by
  by_cases h : t.phase = Phase.claimed ∧ t.url = u
  · simp [claimedFor, List.filter_cons, h]
    omega
  · simp [claimedFor, List.filter_cons, h]

theorem claimedFor_all_start (l : List TaskC) (u : String)
    (h : ∀ x ∈ l, x.phase = Phase.start) : claimedFor l u = 0 := by
  induction l with
  | nil => rfl
  | cons t l2 ih =>
    rw [claimedFor_cons, ih (fun x hx => h x (List.mem_cons_of_mem t hx))]
    have ht := h t (List.mem_cons_self t l2)
    simp [ht]

theorem claimedAll_append (l1 l2 : List TaskC) :
    claimedAll (l1 ++ l2) = claimedAll l1 + claimedAll l2 := by
  simp [claimedAll, List.filter_append]

theorem claimedAll_cons (t : TaskC) (l : List TaskC) :
    claimedAll (t :: l) =
      (if t.phase = Phase.claimed then 1 else 0) + claimedAll l := by
  by_cases h : t.phase = Phase.claimed
  · simp [claimedAll, List.filter_cons, h]
    omega
  · simp [claimedAll, List.filter_cons, h]

theorem claimedAll_all_start (l : List TaskC)
    (h : ∀ x ∈ l, x.phase = Phase.start) : claimedAll l = 0 := by
  induction l with
  | nil => rfl
  | cons t l2 ih =>
    rw [claimedAll_cons, ih (fun x hx => h x (List.mem_cons_of_mem t hx))]
    have ht := h t (List.mem_cons_self t l2)
    simp [ht]

theorem countKind_append_one (rs : List OutcomeRecord) (r : OutcomeRecord) (k : String) :
    countKind (rs ++ [r]) k = countKind rs k + (if r.kind = k then 1 else 0) := by
  by_cases h : r.kind = k
  · simp [countKind, List.filter_append, h]
  · simp [countKind, List.filter_append, h]

theorem toTaskC_phase (base : String) (sp : SpawnTask) :
    (toTaskC base sp).phase = Phase.start := by
  cases sp <;> rfl

theorem runTaskStep_spawn_start (dir : Option String) (base : String)
    (net : String → FetchOutcome) (st : CrawlState) (t : TaskC) :
    ∀ x ∈ (runTaskStep dir base net st t).2, x.phase = Phase.start := by
  intro x hx
  cases hk : t.kind with
  | folderTask p =>
    simp only [runTaskStep, hk] at hx
    obtain ⟨sp, _, hsp⟩ := List.mem_map.mp hx
    rw [← hsp]
    exact toTaskC_phase base sp
  | assetTask rel =>
    simp only [runTaskStep, hk] at hx
    exact absurd hx (List.not_mem_nil x)

theorem processFolderResponse_visited (s : CrawlState) (json_url : String)
    (out : FetchOutcome) :
    (processFolderResponse s json_url out).2.visited = s.visited := by
  cases out with
  | resp status body =>
    by_cases h : status = 200
    · cases hd : body.decoded <;>
        simp [processFolderResponse, h, hd, logResult, bumpErrors]
    · simp [processFolderResponse, h, logResult, bumpErrors]
  | timeout => simp [processFolderResponse, logResult, bumpErrors]
  | exc m => simp [processFolderResponse, logResult, bumpErrors]

theorem processAssetResponse_visited (dir : Option String) (s : CrawlState)
    (url rel : String) (out : FetchOutcome) :
    (processAssetResponse dir s url rel out).visited = s.visited := by
  cases out with
  | resp status body =>
    by_cases h : status = 200
    · cases dir <;> simp [processAssetResponse, h, logResult, bumpErrors]
    · simp [processAssetResponse, h, logResult, bumpErrors]
  | timeout => simp [processAssetResponse, logResult, bumpErrors]
  | exc m => simp [processAssetResponse, logResult, bumpErrors]

theorem runFolderStep_visited (base path json_url : String) (s : CrawlState)
    (out : FetchOutcome) :
    (runFolderStep base path json_url s out).1.visited = s.visited := by
  cases out with
  | resp status body =>
    by_cases h : status = 200
    · cases hd : body.decoded with
      | none => simp [runFolderStep, processFolderResponse, h, hd, logResult, bumpErrors]
      | some data =>
        by_cases hf : data.falsy
        · simp [runFolderStep, processFolderResponse, h, hd, hf, logResult]
        · cases data <;>
            simp [runFolderStep, processFolderResponse, h, hd, hf, logResult]
    · simp [runFolderStep, processFolderResponse, h, logResult, bumpErrors]
  | timeout => simp [runFolderStep, processFolderResponse, logResult, bumpErrors]
  | exc m => simp [runFolderStep, processFolderResponse, logResult, bumpErrors]

theorem runTaskStep_visited (dir : Option String) (base : String)
    (net : String → FetchOutcome) (st : CrawlState) (t : TaskC) :
    (runTaskStep dir base net st t).1.visited = st.visited := by
  cases hk : t.kind with
  | folderTask p =>
    simp only [runTaskStep, hk]
    exact runFolderStep_visited base p t.url st (net t.url)
  | assetTask rel =>
    simp only [runTaskStep, hk]
    exact processAssetResponse_visited dir st t.url rel (net t.url)

/-- At-most-once-dispatch invariant: for every URL, the GETs already issued
plus the tasks holding an unconsumed claim number at most one, and the
existence of either implies the URL is in the visited set. -/
def InvC1 (s : Sys) : Prop :=
  ∀ u, s.gets.count u + claimedFor s.tasks u ≤ 1 ∧
    (1 ≤ s.gets.count u + claimedFor s.tasks u → u ∈ s.state.visited)

theorem invC1_step (dir : Option String) (base : String) (net : String → FetchOutcome)
    (s s' : Sys) (hstep : SysStep dir base net s s') (hinv : InvC1 s) : InvC1 s' := by
  cases hstep with
  | skip st g pre post t hp hv =>
    intro u
    obtain ⟨hle, hmem⟩ := hinv u
    have heq : claimedFor (pre ++ { t with phase := Phase.finished } :: post) u
        = claimedFor (pre ++ t :: post) u := by
      rw [claimedFor_append, claimedFor_append, claimedFor_cons, claimedFor_cons, hp]
      simp
    constructor
    · show g.count u + claimedFor (pre ++ { t with phase := Phase.finished } :: post) u ≤ 1
      rw [heq]
      exact hle
    · intro h1
      rw [heq] at h1
      exact hmem h1
  | claim st g pre post t hp hv =>
    intro u
    obtain ⟨hle, hmem⟩ := hinv u
    have hle2 : g.count u + claimedFor (pre ++ t :: post) u ≤ 1 := hle
    have hmem2 : 1 ≤ g.count u + claimedFor (pre ++ t :: post) u → u ∈ st.visited := hmem
    have hold : claimedFor (pre ++ t :: post) u = claimedFor pre u + claimedFor post u := by
      rw [claimedFor_append, claimedFor_cons, hp]
      simp
    by_cases hu : u = t.url
    · have hz : g.count u + claimedFor (pre ++ t :: post) u = 0 := by
        by_contra hnz
        exact hv (hu ▸ hmem2 (Nat.one_le_iff_ne_zero.mpr hnz))
      have hnew : claimedFor (pre ++ { t with phase := Phase.claimed } :: post) u
          = claimedFor pre u + 1 + claimedFor post u := by
        rw [claimedFor_append, claimedFor_cons]
        simp [hu.symm]
        omega
      constructor
      · show g.count u + claimedFor (pre ++ { t with phase := Phase.claimed } :: post) u ≤ 1
        rw [hnew]
        rw [hold] at hz
        omega
      · intro _
        show u ∈ t.url :: st.visited
        rw [hu]
        exact List.mem_cons_self _ _
    · have hnew : claimedFor (pre ++ { t with phase := Phase.claimed } :: post) u
          = claimedFor (pre ++ t :: post) u := by
        rw [claimedFor_append, claimedFor_append, claimedFor_cons, claimedFor_cons, hp]
        have h2 : ¬(t.url = u) := fun hh => hu hh.symm
        simp [h2]
      constructor
      · show g.count u + claimedFor (pre ++ { t with phase := Phase.claimed } :: post) u ≤ 1
        rw [hnew]
        exact hle2
      · intro h1
        rw [hnew] at h1
        show u ∈ t.url :: st.visited
        exact List.mem_cons_of_mem _ (hmem2 h1)
  | run st g pre post t hp =>
    intro u
    obtain ⟨hle, hmem⟩ := hinv u
    have hle2 : g.count u + claimedFor (pre ++ t :: post) u ≤ 1 := hle
    have hmem2 : 1 ≤ g.count u + claimedFor (pre ++ t :: post) u → u ∈ st.visited := hmem
    have hvis := runTaskStep_visited dir base net st t
    have hspawn : claimedFor (runTaskStep dir base net st t).2 u = 0 :=
      claimedFor_all_start _ _ (runTaskStep_spawn_start dir base net st t)
    have hnew : claimedFor ((pre ++ { t with phase := Phase.finished } :: post)
          ++ (runTaskStep dir base net st t).2) u
        = claimedFor pre u + claimedFor post u := by
      rw [claimedFor_append, claimedFor_append, claimedFor_cons, hspawn]
      simp
    have hold : claimedFor (pre ++ t :: post) u
        = claimedFor pre u + (if t.url = u then 1 else 0) + claimedFor post u := by
      rw [claimedFor_append, claimedFor_cons, hp]
      by_cases hu : t.url = u
      · simp [hu]
        omega
      · simp [hu]
    have hcnt : (t.url :: g).count u = g.count u + (if t.url = u then 1 else 0) := by
      by_cases hu : t.url = u
      · simp [List.count_cons, hu]
      · simp [List.count_cons, hu]
    constructor
    · show (t.url :: g).count u + claimedFor ((pre ++ { t with phase := Phase.finished } :: post)
          ++ (runTaskStep dir base net st t).2) u ≤ 1
      rw [hcnt, hnew]
      rw [hold] at hle2
      omega
    · intro hge
      show u ∈ (runTaskStep dir base net st t).1.visited
      rw [hvis]
      apply hmem2
      rw [hold]
      rw [hcnt, hnew] at hge
      omega

theorem invC1_reach (dir : Option String) (base : String) (net : String → FetchOutcome)
    (s0 s : Sys) (h0 : InvC1 s0)
    (hr : Relation.ReflTransGen (SysStep dir base net) s0 s) : InvC1 s := by
  induction hr with
  | refl => exact h0
  | tail _ hstep ih => exact invC1_step dir base net _ _ hstep ih

/-- C1: in any schedule of any number of concurrent tasks — starting from a
state where no GET has been issued and no task has claimed yet — at most
one network GET is ever issued per exact URL string: the visited-set check
and insertion form one atomic step (`SysStep.claim` — lines 64-67 and
101-104 contain no suspension point), and only the task that performed the
insertion reaches the `SysStep.run` step that performs the Transport
call. -/
theorem c1_at_most_once_dispatch (dir : Option String) (base : String)
    (net : String → FetchOutcome) (s0 s : Sys)
    (hg : s0.gets = []) (ht : ∀ t ∈ s0.tasks, t.phase = Phase.start)
    (hr : Relation.ReflTransGen (SysStep dir base net) s0 s) (u : String) :
    countGets s u ≤ 1 := by
  have h0 : InvC1 s0 := by
    intro v
    have hz : s0.gets.count v = 0 := by rw [hg]; rfl
    have hcf : claimedFor s0.tasks v = 0 := claimedFor_all_start _ _ ht
    rw [hz, hcf]
    exact ⟨by omega, fun h => absurd h (by omega)⟩
  have hinv := invC1_reach dir base net s0 s h0 hr
  show s.gets.count u ≤ 1
  have h1 := (hinv u).1
  omega

/-- C1 witness: the theorem applied to a concrete initial system with one
unstarted folder task. -/
theorem c1_at_most_once_dispatch_witness :
    countGets ⟨⟨[], [], ⟨0, 0, 0, 0⟩, []⟩, [],
      [⟨"http://h/.1.json", TKind.folderTask "/", Phase.start⟩]⟩ "http://h/.1.json" ≤ 1 :=
  c1_at_most_once_dispatch none "http://h" (fun _ => FetchOutcome.timeout) _ _
    rfl (by decide) Relation.ReflTransGen.refl "http://h/.1.json"

/-- The records-based tally: assets counter + errors counter + folder-kind
records.  Every claimed dispatch adds exactly one to it, whatever the
outcome. -/
def tallyState (s : CrawlState) : Nat :=
  s.stats.assets + s.stats.errors + countKind s.results "folder"

theorem runTaskStep_tally (dir : Option String) (base : String)
    (net : String → FetchOutcome) (st : CrawlState) (t : TaskC) :
    tallyState (runTaskStep dir base net st t).1 = tallyState st + 1 ∧
    ∃ df dr, (runTaskStep dir base net st t).1.stats.folders = st.stats.folders + df ∧
      countKind (runTaskStep dir base net st t).1.results "folder" =
        countKind st.results "folder" + dr ∧ df ≤ dr := by
  have hEF : ("error" : String) ≠ "folder" := by decide
  have hAF : ("asset" : String) ≠ "folder" := by decide
  cases hk : t.kind with
  | assetTask rel =>
    simp only [runTaskStep, hk]
    cases hout : net t.url with
    | resp status body =>
      by_cases h200 : status = 200
      · cases dir with
        | none =>
          refine ⟨?_, 0, 0, ?_, ?_, le_refl 0⟩ <;>
            simp [processAssetResponse, h200, logResult, bumpErrors, tallyState,
              countKind_append_one, hAF] <;> omega
        | some d =>
          refine ⟨?_, 0, 0, ?_, ?_, le_refl 0⟩ <;>
            simp [processAssetResponse, h200, logResult, bumpErrors, tallyState,
              countKind_append_one, hAF] <;> omega
      · refine ⟨?_, 0, 0, ?_, ?_, le_refl 0⟩ <;>
          simp [processAssetResponse, h200, logResult, bumpErrors, tallyState,
            countKind_append_one, hEF] <;> omega
    | timeout =>
      refine ⟨?_, 0, 0, ?_, ?_, le_refl 0⟩ <;>
        simp [processAssetResponse, logResult, bumpErrors, tallyState,
          countKind_append_one, hEF] <;> omega
    | exc m =>
      refine ⟨?_, 0, 0, ?_, ?_, le_refl 0⟩ <;>
        simp [processAssetResponse, logResult, bumpErrors, tallyState,
          countKind_append_one, hEF] <;> omega
  | folderTask p =>
    simp only [runTaskStep, hk]
    cases hout : net t.url with
    | resp status body =>
      by_cases h200 : status = 200
      · cases hd : body.decoded with
        | none =>
          refine ⟨?_, 0, 0, ?_, ?_, le_refl 0⟩ <;>
            simp [runFolderStep, processFolderResponse, h200, hd, logResult, bumpErrors,
              tallyState, countKind_append_one, hEF] <;> omega
        | some data =>
          cases hfd : data.falsy with
          | true =>
            refine ⟨?_, 0, 1, ?_, ?_, by omega⟩ <;>
              simp [runFolderStep, processFolderResponse, h200, hd, hfd, logResult,
                tallyState, countKind_append_one] <;> omega
          | false =>
            cases data with
            | null => simp [Json.falsy] at hfd
            | obj entries =>
              refine ⟨?_, 1, 1, ?_, ?_, le_refl 1⟩ <;>
                simp [runFolderStep, processFolderResponse, h200, hd, hfd, logResult,
                  tallyState, countKind_append_one] <;> omega
            | bool b =>
              refine ⟨?_, 1, 1, ?_, ?_, le_refl 1⟩ <;>
                simp [runFolderStep, processFolderResponse, h200, hd, hfd, logResult,
                  tallyState, countKind_append_one] <;> omega
            | num n =>
              refine ⟨?_, 1, 1, ?_, ?_, le_refl 1⟩ <;>
                simp [runFolderStep, processFolderResponse, h200, hd, hfd, logResult,
                  tallyState, countKind_append_one] <;> omega
            | str a =>
              refine ⟨?_, 1, 1, ?_, ?_, le_refl 1⟩ <;>
                simp [runFolderStep, processFolderResponse, h200, hd, hfd, logResult,
                  tallyState, countKind_append_one] <;> omega
            | arr xs =>
              refine ⟨?_, 1, 1, ?_, ?_, le_refl 1⟩ <;>
                simp [runFolderStep, processFolderResponse, h200, hd, hfd, logResult,
                  tallyState, countKind_append_one] <;> omega
      · refine ⟨?_, 0, 0, ?_, ?_, le_refl 0⟩ <;>
          simp [runFolderStep, processFolderResponse, h200, logResult, bumpErrors,
            tallyState, countKind_append_one, hEF] <;> omega
    | timeout =>
      refine ⟨?_, 0, 0, ?_, ?_, le_refl 0⟩ <;>
        simp [runFolderStep, processFolderResponse, logResult, bumpErrors,
          tallyState, countKind_append_one, hEF] <;> omega
    | exc m =>
      refine ⟨?_, 0, 0, ?_, ?_, le_refl 0⟩ <;>
        simp [runFolderStep, processFolderResponse, logResult, bumpErrors,
          tallyState, countKind_append_one, hEF] <;> omega

theorem claimedAll_none (l : List TaskC)
    (h : ∀ x ∈ l, x.phase ≠ Phase.claimed) : claimedAll l = 0 := by
  induction l with
  | nil => rfl
  | cons t l2 ih =>
    rw [claimedAll_cons, ih (fun x hx => h x (List.mem_cons_of_mem t hx))]
    have ht := h t (List.mem_cons_self t l2)
    simp [ht]

/-- Counter-conservation invariant: the tally plus the number of claims not
yet run equals the number of visited (claimed) URLs; and the folders
counter never exceeds the folder-kind records. -/
def InvC3 (s : Sys) : Prop :=
  tallyState s.state + claimedAll s.tasks = s.state.visited.length ∧
  s.state.stats.folders ≤ countKind s.state.results "folder"

theorem invC3_step (dir : Option String) (base : String) (net : String → FetchOutcome)
    (s s' : Sys) (hstep : SysStep dir base net s s') (hinv : InvC3 s) : InvC3 s' := by
  cases hstep with
  | skip st g pre post t hp hv =>
    obtain ⟨h1, h2⟩ := hinv
    have h1b : tallyState st + claimedAll (pre ++ t :: post) = st.visited.length := h1
    have hca : claimedAll (pre ++ { t with phase := Phase.finished } :: post)
        = claimedAll (pre ++ t :: post) := by
      rw [claimedAll_append, claimedAll_append, claimedAll_cons, claimedAll_cons, hp]
      simp
    constructor
    · show tallyState st + claimedAll (pre ++ { t with phase := Phase.finished } :: post)
        = st.visited.length
      rw [hca]
      exact h1b
    · exact h2
  | claim st g pre post t hp hv =>
    obtain ⟨h1, h2⟩ := hinv
    have h1b : tallyState st + claimedAll (pre ++ t :: post) = st.visited.length := h1
    have hca : claimedAll (pre ++ { t with phase := Phase.claimed } :: post)
        = claimedAll (pre ++ t :: post) + 1 := by
      rw [claimedAll_append, claimedAll_append, claimedAll_cons, claimedAll_cons, hp]
      simp
      omega
    constructor
    · show tallyState st + claimedAll (pre ++ { t with phase := Phase.claimed } :: post)
        = (t.url :: st.visited).length
      rw [hca, List.length_cons]
      omega
    · exact h2
  | run st g pre post t hp =>
    obtain ⟨h1, h2⟩ := hinv
    have h1b : tallyState st + claimedAll (pre ++ t :: post) = st.visited.length := h1
    have h2b : st.stats.folders ≤ countKind st.results "folder" := h2
    obtain ⟨htally, df, dr, hdf, hdr, hledr⟩ := runTaskStep_tally dir base net st t
    have hvis := runTaskStep_visited dir base net st t
    have hsp : claimedAll (runTaskStep dir base net st t).2 = 0 :=
      claimedAll_all_start _ (runTaskStep_spawn_start dir base net st t)
    have hcaOld : claimedAll (pre ++ t :: post)
        = claimedAll pre + 1 + claimedAll post := by
      rw [claimedAll_append, claimedAll_cons, hp]
      simp
      omega
    have hcaNew : claimedAll ((pre ++ { t with phase := Phase.finished } :: post)
          ++ (runTaskStep dir base net st t).2)
        = claimedAll pre + claimedAll post := by
      rw [claimedAll_append, claimedAll_append, claimedAll_cons, hsp]
      simp
    constructor
    · show tallyState (runTaskStep dir base net st t).1
          + claimedAll ((pre ++ { t with phase := Phase.finished } :: post)
            ++ (runTaskStep dir base net st t).2)
        = (runTaskStep dir base net st t).1.visited.length
      rw [htally, hcaNew, hvis]
      rw [hcaOld] at h1b
      omega
    · show (runTaskStep dir base net st t).1.stats.folders
        ≤ countKind (runTaskStep dir base net st t).1.results "folder"
      rw [hdf, hdr]
      omega

theorem invC3_reach (dir : Option String) (base : String) (net : String → FetchOutcome)
    (s0 s : Sys) (h0 : InvC3 s0)
    (hr : Relation.ReflTransGen (SysStep dir base net) s0 s) : InvC3 s := by
  induction hr with
  | refl => exact h0
  | tail _ hstep ih => exact invC3_step dir base net _ _ hstep ih

/-- C3 counterexample: one folder task, answered 200 with the empty JSON
object.  After the crawl settles (no claim in flight), one URL was claimed
(`visited` has length 1), yet folders + assets + errors = 0 in the final
state: a folder-kind record was logged, but `crawl_path` returned at
`if not data` (line 179) before incrementing any counter, because the empty
dict is falsy. -/
theorem c3_counterexample :
    Relation.ReflTransGen
      (SysStep none "http://h" (fun _ => FetchOutcome.resp 200 ⟨2, some (Json.obj [])⟩))
      ⟨⟨[], [], ⟨0, 0, 0, 0⟩, []⟩, [],
        [⟨"http://h/.1.json", TKind.folderTask "/", Phase.start⟩]⟩
      ⟨⟨["http://h/.1.json"], [⟨"http://h/.1.json", 200, 2, "folder", ""⟩],
          ⟨0, 0, 0, 0⟩, []⟩, ["http://h/.1.json"],
        [⟨"http://h/.1.json", TKind.folderTask "/", Phase.finished⟩]⟩ ∧
    (∀ t ∈ (⟨⟨["http://h/.1.json"], [⟨"http://h/.1.json", 200, 2, "folder", ""⟩],
          ⟨0, 0, 0, 0⟩, []⟩, ["http://h/.1.json"],
        [⟨"http://h/.1.json", TKind.folderTask "/", Phase.finished⟩]⟩ : Sys).tasks,
      t.phase ≠ Phase.claimed) ∧
    (⟨⟨["http://h/.1.json"], [⟨"http://h/.1.json", 200, 2, "folder", ""⟩],
          ⟨0, 0, 0, 0⟩, []⟩, ["http://h/.1.json"],
        [⟨"http://h/.1.json", TKind.folderTask "/", Phase.finished⟩]⟩ : Sys).state.stats.folders +
      (⟨⟨["http://h/.1.json"], [⟨"http://h/.1.json", 200, 2, "folder", ""⟩],
          ⟨0, 0, 0, 0⟩, []⟩, ["http://h/.1.json"],
        [⟨"http://h/.1.json", TKind.folderTask "/", Phase.finished⟩]⟩ : Sys).state.stats.assets +
      (⟨⟨["http://h/.1.json"], [⟨"http://h/.1.json", 200, 2, "folder", ""⟩],
          ⟨0, 0, 0, 0⟩, []⟩, ["http://h/.1.json"],
        [⟨"http://h/.1.json", TKind.folderTask "/", Phase.finished⟩]⟩ : Sys).state.stats.errors = 0 ∧
    (⟨⟨["http://h/.1.json"], [⟨"http://h/.1.json", 200, 2, "folder", ""⟩],
          ⟨0, 0, 0, 0⟩, []⟩, ["http://h/.1.json"],
        [⟨"http://h/.1.json", TKind.folderTask "/", Phase.finished⟩]⟩ : Sys).state.visited.length = 1 := by
  refine ⟨?_, by decide, rfl, rfl⟩
  exact Relation.ReflTransGen.head
    (SysStep.claim ⟨[], [], ⟨0, 0, 0, 0⟩, []⟩ [] [] []
      ⟨"http://h/.1.json", TKind.folderTask "/", Phase.start⟩ rfl (by decide))
    (Relation.ReflTransGen.single
      (SysStep.run ⟨["http://h/.1.json"], [], ⟨0, 0, 0, 0⟩, []⟩ [] [] []
        ⟨"http://h/.1.json", TKind.folderTask "/", Phase.claimed⟩ rfl))

/-- C3 amended: at any settled point of a crawl run (no claim still in
flight) started from a fresh state, assets + errors + (number of
folder-kind records) equals the number of claimed URLs — every claimed
dispatch contributes to exactly one of those — while the folders counter
may fall short of the folder-kind records: a claimed folder fetch that
returns 200 with a falsy decoded body (such as the empty JSON object) logs
a folder record but increments no counter, so folders + assets + errors can
undercount the claimed URLs. -/
theorem c3_amended_counter_conservation (dir : Option String) (base : String)
    (net : String → FetchOutcome) (s0 s : Sys)
    (hv0 : s0.state.visited = []) (hr0 : s0.state.results = [])
    (hs0 : s0.state.stats = ⟨0, 0, 0, 0⟩)
    (ht0 : ∀ t ∈ s0.tasks, t.phase = Phase.start)
    (hr : Relation.ReflTransGen (SysStep dir base net) s0 s)
    (hq : ∀ t ∈ s.tasks, t.phase ≠ Phase.claimed) :
    s.state.stats.assets + s.state.stats.errors + countKind s.state.results "folder"
      = s.state.visited.length ∧
    s.state.stats.folders ≤ countKind s.state.results "folder" := by
  have h0 : InvC3 s0 := by
    constructor
    · show tallyState s0.state + claimedAll s0.tasks = s0.state.visited.length
      rw [claimedAll_all_start s0.tasks ht0, hv0]
      unfold tallyState countKind
      rw [hr0, hs0]
      rfl
    · show s0.state.stats.folders ≤ countKind s0.state.results "folder"
      rw [hs0]
      exact Nat.zero_le _
  obtain ⟨h1, h2⟩ := invC3_reach dir base net s0 s h0 hr
  rw [claimedAll_none s.tasks hq] at h1
  refine ⟨?_, h2⟩
  simpa [tallyState] using h1

/-- C3 witness: the amended conservation applied to a concrete fresh system
with one unstarted task and the empty schedule. -/
theorem c3_amended_counter_conservation_witness :
    (⟨⟨[], [], ⟨0, 0, 0, 0⟩, []⟩, [],
        [⟨"u", TKind.assetTask "a", Phase.start⟩]⟩ : Sys).state.stats.assets
      + (⟨⟨[], [], ⟨0, 0, 0, 0⟩, []⟩, [],
        [⟨"u", TKind.assetTask "a", Phase.start⟩]⟩ : Sys).state.stats.errors
      + countKind (⟨⟨[], [], ⟨0, 0, 0, 0⟩, []⟩, [],
        [⟨"u", TKind.assetTask "a", Phase.start⟩]⟩ : Sys).state.results "folder"
      = (⟨⟨[], [], ⟨0, 0, 0, 0⟩, []⟩, [],
        [⟨"u", TKind.assetTask "a", Phase.start⟩]⟩ : Sys).state.visited.length ∧
    (⟨⟨[], [], ⟨0, 0, 0, 0⟩, []⟩, [],
        [⟨"u", TKind.assetTask "a", Phase.start⟩]⟩ : Sys).state.stats.folders
      ≤ countKind (⟨⟨[], [], ⟨0, 0, 0, 0⟩, []⟩, [],
        [⟨"u", TKind.assetTask "a", Phase.start⟩]⟩ : Sys).state.results "folder" :=
  c3_amended_counter_conservation none "http://h" (fun _ => FetchOutcome.timeout)
    ⟨⟨[], [], ⟨0, 0, 0, 0⟩, []⟩, [], [⟨"u", TKind.assetTask "a", Phase.start⟩]⟩
    ⟨⟨[], [], ⟨0, 0, 0, 0⟩, []⟩, [], [⟨"u", TKind.assetTask "a", Phase.start⟩]⟩
    rfl rfl rfl (by decide) Relation.ReflTransGen.refl (by decide)

/-- C8: a scheduler step in which a claimed folder task processes a failing
fetch (timeout, non-200 status, or undecodable 200 body) moves the system
to a state where exactly one error record for that task's URL is appended
(all earlier records — siblings' outcomes — preserved), only the error
counter changes (siblings' folder/asset/byte contributions intact), the
visited set and saved files are untouched, every other task is left exactly
as it was (nothing aborted or cancelled — errors are caught inside
`fetch_json`, and line 219 gathers with `return_exceptions=True`), and no
child task is spawned. -/
theorem c8_failure_isolation (dir : Option String) (base : String)
    (net : String → FetchOutcome) (st : CrawlState) (g : List String)
    (pre post : List TaskC) (t : TaskC) (p : String)
    (hk : t.kind = TKind.folderTask p) (hp : t.phase = Phase.claimed)
    (hf : failingOutcome (net t.url)) :
    ∃ rec : OutcomeRecord,
      SysStep dir base net ⟨st, g, pre ++ t :: post⟩
        ⟨{ st with results := st.results ++ [rec],
                   stats := { st.stats with errors := st.stats.errors + 1 } },
          t.url :: g, pre ++ { t with phase := Phase.finished } :: post⟩ ∧
      rec.kind = "error" ∧ rec.url = t.url := by
  obtain ⟨rec, h1, h2, h3, h4, _, _, _⟩ :=
    runFolderStep_fail base p t.url st (net t.url) hf
  refine ⟨rec, ?_, h3, h4⟩
  have hfst : (runTaskStep dir base net st t).1 =
      { st with results := st.results ++ [rec],
                stats := { st.stats with errors := st.stats.errors + 1 } } := by
    simp only [runTaskStep, hk]
    exact h1
  have hsnd : (runTaskStep dir base net st t).2 = [] := by
    simp only [runTaskStep, hk]
    rw [h2]
    rfl
  have hrun : SysStep dir base net ⟨st, g, pre ++ t :: post⟩
      ⟨(runTaskStep dir base net st t).1, t.url :: g,
        (pre ++ { t with phase := Phase.finished } :: post) ++
          (runTaskStep dir base net st t).2⟩ :=
    SysStep.run st g pre post t hp
  rw [hfst, hsnd, List.append_nil] at hrun
  exact hrun

/-- C8 witness: a claimed folder task answered 404 fails while an unstarted
sibling task exists; the step appends one error record, bumps only the
error counter, and leaves the sibling untouched. -/
theorem c8_failure_isolation_witness :
    ∃ rec : OutcomeRecord,
      SysStep none "http://h" (fun _ => FetchOutcome.resp 404 ⟨3, none⟩)
        ⟨⟨["http://h/x/.1.json"], [], ⟨0, 0, 0, 0⟩, []⟩, [],
          [⟨"http://h/x/.1.json", TKind.folderTask "x", Phase.claimed⟩,
           ⟨"http://h/y/.1.json", TKind.folderTask "y", Phase.start⟩]⟩
        ⟨⟨["http://h/x/.1.json"], [] ++ [rec], ⟨0, 0, 0 + 1, 0⟩, []⟩,
          ["http://h/x/.1.json"],
          [⟨"http://h/x/.1.json", TKind.folderTask "x", Phase.finished⟩,
           ⟨"http://h/y/.1.json", TKind.folderTask "y", Phase.start⟩]⟩ ∧
      rec.kind = "error" ∧ rec.url = "http://h/x/.1.json" :=
  c8_failure_isolation none "http://h" (fun _ => FetchOutcome.resp 404 ⟨3, none⟩)
    ⟨["http://h/x/.1.json"], [], ⟨0, 0, 0, 0⟩, []⟩ [] []
    [⟨"http://h/y/.1.json", TKind.folderTask "y", Phase.start⟩]
    ⟨"http://h/x/.1.json", TKind.folderTask "x", Phase.claimed⟩ "x"
    rfl rfl (Or.inl (by decide))
